import Mathlib

/-!
Shallow embedding of the reconciliation core of the integration-service
pipeline adapter (src/controllers/pipeline/pipeline_adapter.go), together
with theorems settling the frozen claims about it.

Store reads/writes (client.Get/List/Create/Patch), the tekton helper
predicates (IsBuildPipelineRun, IsIntegrationPipelineRun,
GetTypeFromPipelineRun, GetOutputImage, GetOutputImageDigest) and the
controllers/results package live outside the given source; they enter the
embedding as explicit inputs (Except-valued fetch results, a store list,
a name-indexed store function) or, for the tri-state operation result, as
an inductive type modelled from the spec.
-/

namespace IntegrationService

/-- JSON value as produced by unmarshalling a task-result payload into a Go
`map[string]interface{}`. Go compares an `interface{}` against a string
literal as equal only when the dynamic value is that string, so every
non-string shape is collapsed into dedicated constructors that are unequal
to every `str`. `null` is also the value Go yields when a map key is
absent. -/
inductive JsonVal where
  | null
  | str (s : String)
  | other
  deriving DecidableEq, Repr

/-- One tekton TaskRunResult (a name and a JSON-string value). The opaque
value string is represented by its `json.Unmarshal` outcome: `none` models
a payload that fails to parse, `some obj` the parsed top-level object as an
association list. -/
structure TaskRunResult where
  name : String
  value : Option (List (String × JsonVal))
  deriving DecidableEq, Repr

/-- Status of one TaskRun: the task results it produced
(taskRun.Status.TaskRunResults in the source). -/
structure TaskRunStatus where
  taskRunResults : List TaskRunResult
  deriving DecidableEq, Repr

/-- One entry of pipelineRun.Status.TaskRuns. -/
structure TaskRun where
  pipelineTaskName : String
  status : TaskRunStatus
  deriving DecidableEq, Repr

/-- Status of a PipelineRun: `succeeded` models
`Status.GetCondition(apis.ConditionSucceeded).IsTrue()`, `completionTime`
the completion timestamp (`Status.CompletionTime.Time`, as an integer
instant; Go's `After` is strict `>`), and `taskRuns` the map of child
TaskRun statuses (iterated as a list). -/
structure PipelineRunStatus where
  succeeded : Bool
  completionTime : Int
  taskRuns : List TaskRun
  deriving DecidableEq, Repr

/-- A tekton PipelineRun as the adapter reads it: its labels (an
association map; lookup takes the first binding) and its status. -/
structure PipelineRun where
  name : String
  labels : List (String × String)
  status : PipelineRunStatus
  deriving DecidableEq, Repr

/-- A metav1.Condition as written by markSnapshotAsPassed/Failed:
`status` true models metav1.ConditionTrue, false metav1.ConditionFalse. -/
structure Condition where
  type : String
  status : Bool
  reason : String
  message : String
  deriving DecidableEq, Repr

/-- One component entry of an ApplicationSnapshot's spec. -/
structure ApplicationSnapshotComponent where
  name : String
  containerImage : String
  deriving DecidableEq, Repr

/-- An ApplicationSnapshot: its spec (application and component→image
entries), labels, and status conditions. -/
structure ApplicationSnapshot where
  name : String
  application : String
  components : List ApplicationSnapshotComponent
  labels : List (String × String)
  conditions : List Condition
  deriving DecidableEq, Repr

/-- An Application Component as read by the adapter: its name and its
currently-recorded container image (Status.ContainerImage). -/
structure Component where
  name : String
  containerImage : String
  deriving DecidableEq, Repr

/-- An IntegrationTestScenario: name, owning application and labels. -/
structure IntegrationTestScenario where
  name : String
  application : String
  labels : List (String × String)
  deriving DecidableEq, Repr

/-- Modelled from the spec: the tri-state result of the controllers/results
package (not under src/) — `Continue` (no further action), retry with the
error, or best-effort status write then retry-or-stop
(results.ContinueProcessing / RequeueWithError / RequeueOnErrorOrStop). -/
inductive OperationResult where
  | continueProcessing
  | requeueWithError
  | requeueOnErrorOrStop
  deriving DecidableEq, Repr

/-- Reading `testOutput["result"]` from a parsed Go map: the first binding
of the key, or Go's zero interface value (`null`) when the key is absent. -/
def jsonField (obj : List (String × JsonVal)) (key : String) : JsonVal :=
  (List.lookup key obj).getD JsonVal.null

/-- Loop body of calculateIntegrationPipelineRunOutcome over one TaskRun's
results (pipeline_adapter.go lines 439-453): a result named
HACBS_TEST_OUTPUT is unmarshalled (parse failure aborts with the error);
if its `result` field is neither "SUCCESS" nor "SKIPPED" the whole
computation returns false at once; otherwise scanning continues. -/
def scanTaskRunResults : List TaskRunResult → Except String Bool
  | [] => .ok true
  | r :: rest =>
    if r.name = "HACBS_TEST_OUTPUT" then
      match r.value with
      | none => .error "json unmarshal error"
      | some obj =>
        if jsonField obj "result" = JsonVal.str "SUCCESS"
            ∨ jsonField obj "result" = JsonVal.str "SKIPPED" then
          scanTaskRunResults rest
        else
          .ok false
    else
      scanTaskRunResults rest

/-- Outer loop of calculateIntegrationPipelineRunOutcome over the child
TaskRuns (pipeline_adapter.go line 438): an early `.ok false` or `.error`
from one TaskRun's results ends the whole scan. -/
def scanTaskRuns : List TaskRun → Except String Bool
  | [] => .ok true
  | t :: rest =>
    match scanTaskRunResults t.status.taskRunResults with
    | .ok true => scanTaskRuns rest
    | r => r

/-- calculateIntegrationPipelineRunOutcome (pipeline_adapter.go 437-456):
scan all task results of the run; false as soon as a HACBS_TEST_OUTPUT
entry's `result` is neither "SUCCESS" nor "SKIPPED", error on a malformed
payload, true otherwise. -/
def calculateIntegrationPipelineRunOutcome (pipelineRun : PipelineRun) :
    Except String Bool :=
  scanTaskRuns pipelineRun.status.taskRuns

/-- Loop of determineIfAllIntegrationPipelinesPassed
(pipeline_adapter.go 286-303): an outcome error is returned at once; a
false outcome clears the accumulator but scanning continues. -/
def determineLoop : List PipelineRun → Bool → Except String Bool
  | [], allPassed => .ok allPassed
  | pipelineRun :: rest, allPassed =>
    match calculateIntegrationPipelineRunOutcome pipelineRun with
    | .error e => .error e
    | .ok outcome => determineLoop rest (allPassed && outcome)

/-- determineIfAllIntegrationPipelinesPassed (pipeline_adapter.go 286-303),
started with allIntegrationPipelineRunsPassed = true. -/
def determineIfAllIntegrationPipelinesPassed
    (integrationPipelineRuns : List PipelineRun) : Except String Bool :=
  determineLoop integrationPipelineRuns true

/-- meta.SetStatusCondition of apimachinery as used by
markSnapshotAsPassed/Failed: replace the condition holding the same type,
or append when no condition of that type exists. -/
def setStatusCondition (conds : List Condition) (c : Condition) :
    List Condition :=
  if conds.any (fun x => x.type = c.type) then
    conds.map (fun x => if x.type = c.type then c else x)
  else
    conds ++ [c]

/-- Look a condition up by type (meta.FindStatusCondition). -/
def findCondition (conds : List Condition) (condType : String) :
    Option Condition :=
  conds.find? (fun c => c.type = condType)

/-- markSnapshotAsPassed (pipeline_adapter.go 460-474): set the
HACBSTestSucceeded condition to status true, reason "Passed". -/
def markSnapshotAsPassed (applicationSnapshot : ApplicationSnapshot)
    (message : String) : ApplicationSnapshot :=
  { applicationSnapshot with
      conditions := setStatusCondition applicationSnapshot.conditions
        ⟨"HACBSTestSucceeded", true, "Passed", message⟩ }

/-- markSnapshotAsFailed (pipeline_adapter.go 478-491): set the
HACBSTestSucceeded condition to status false, reason "Failed". -/
def markSnapshotAsFailed (applicationSnapshot : ApplicationSnapshot)
    (message : String) : ApplicationSnapshot :=
  { applicationSnapshot with
      conditions := setStatusCondition applicationSnapshot.conditions
        ⟨"HACBSTestSucceeded", false, "Failed", message⟩ }

/-- Verdict step of EnsureApplicationSnapshotPassedAllTests
(pipeline_adapter.go 144-169): reduce the resolved runs, then write
Passed or Failed on the snapshot with the messages of the source. -/
def writeSnapshotVerdict (applicationSnapshot : ApplicationSnapshot)
    (integrationPipelineRuns : List PipelineRun) :
    Except String ApplicationSnapshot :=
  match determineIfAllIntegrationPipelinesPassed integrationPipelineRuns with
  | .error e => .error e
  | .ok allPassed =>
    if allPassed then
      .ok (markSnapshotAsPassed applicationSnapshot
        "All Integration Pipeline tests passed")
    else
      .ok (markSnapshotAsFailed applicationSnapshot
        "Some Integration pipeline tests failed")

/-- Selection loop of getLatestPipelineRunForApplicationSnapshotAndScenario
(pipeline_adapter.go 355-366): only runs whose Succeeded condition is true
are considered; a later completion time (strict After) displaces the
current candidate. -/
def latestLoop : List PipelineRun → Option PipelineRun → Option PipelineRun
  | [], latest => latest
  | pipelineRun :: rest, latest =>
    if pipelineRun.status.succeeded then
      match latest with
      | none => latestLoop rest (some pipelineRun)
      | some best =>
        if pipelineRun.status.completionTime > best.status.completionTime then
          latestLoop rest (some pipelineRun)
        else
          latestLoop rest (some best)
    else
      latestLoop rest latest

/-- getLatestPipelineRunForApplicationSnapshotAndScenario
(pipeline_adapter.go 337-372) applied to the items the store List returned
for the {type=test, snapshot, scenario} label query; `none` models the
(nil, nil) return when no succeeded run exists. -/
def getLatestPipelineRunForApplicationSnapshotAndScenario
    (items : List PipelineRun) : Option PipelineRun :=
  latestLoop items none

/-- Matching of a k8s label requirement `key NotIn excluded` (apimachinery
labels.Requirement.Matches): an object missing the key matches, otherwise
its value must lie outside the excluded set. -/
def notInRequirementMatches (key : String) (excluded : List String)
    (lbls : List (String × String)) : Bool :=
  match List.lookup key lbls with
  | none => true
  | some v => !(excluded.contains v)

/-- getRequiredIntegrationTestScenariosForApplication
(pipeline_adapter.go 496-517) applied to the application-scoped scenario
list: keep the scenarios matched by the requirement
`test.appstudio.openshift.io/optional NotIn {"false"}`. -/
def getRequiredIntegrationTestScenariosForApplication
    (scenarios : List IntegrationTestScenario) :
    List IntegrationTestScenario :=
  scenarios.filter (fun s =>
    notInRequirementMatches "test.appstudio.openshift.io/optional" ["false"]
      s.labels)

/-- compareApplicationSnapshots (pipeline_adapter.go 213-230): the
component lists have equal length, and every component entry of the
expected snapshot occurs (by full equality) somewhere in the found one. -/
def compareApplicationSnapshots
    (expectedApplicationSnapshot foundApplicationSnapshot :
      ApplicationSnapshot) : Bool :=
  decide (expectedApplicationSnapshot.components.length =
      foundApplicationSnapshot.components.length) &&
  expectedApplicationSnapshot.components.all (fun component1 =>
    foundApplicationSnapshot.components.any (fun component2 =>
      decide (component2 = component1)))

/-- findMatchingApplicationSnapshot (pipeline_adapter.go 233-250) applied
to the already-prepared expected snapshot and the listed snapshots: the
first stored snapshot the comparison accepts. -/
def findMatchingApplicationSnapshot
    (expectedApplicationSnapshot : ApplicationSnapshot)
    (allApplicationSnapshots : List ApplicationSnapshot) :
    Option ApplicationSnapshot :=
  allApplicationSnapshots.find? (fun s =>
    compareApplicationSnapshots expectedApplicationSnapshot s)

/-- EnsureApplicationSnapshotExists (pipeline_adapter.go 66-97) on the
success path of the store: `prepared` is the outcome of preparing the
expected snapshot (an error there surfaces as RequeueWithError with no
write), the store is the listed snapshot collection, and a create appends
the prepared snapshot. The pair returned is the operation result and the
store contents afterwards. -/
def ensureApplicationSnapshotExists (isBuildPipelineRun : Bool)
    (prepared : Except String ApplicationSnapshot)
    (store : List ApplicationSnapshot) :
    OperationResult × List ApplicationSnapshot :=
  if !isBuildPipelineRun then
    (.continueProcessing, store)
  else
    match prepared with
    | .error _ => (.requeueWithError, store)
    | .ok expectedApplicationSnapshot =>
      match findMatchingApplicationSnapshot expectedApplicationSnapshot
          store with
      | some _ => (.continueProcessing, store)
      | none => (.continueProcessing, store ++ [expectedApplicationSnapshot])

/-- Component loop of prepareApplicationSnapshotForPipelineRun
(pipeline_adapter.go 384-396): each application component keeps its
recorded image, except those named like the triggering component, which
take the image pull spec derived from the build PipelineRun (whose
derivation may fail, aborting the whole preparation). -/
def prepareComponentsLoop (applicationComponents : List Component)
    (componentName : String) (pullSpecResult : Except String String) :
    Except String (List ApplicationSnapshotComponent) :=
  match applicationComponents with
  | [] => .ok []
  | c :: rest =>
    match (if c.name = componentName then pullSpecResult
           else .ok c.containerImage) with
    | .error e => .error e
    | .ok pullSpec =>
      match prepareComponentsLoop rest componentName pullSpecResult with
      | .error e => .error e
      | .ok comps => .ok (⟨c.name, pullSpec⟩ :: comps)

/-- prepareApplicationSnapshotForPipelineRun (pipeline_adapter.go 376-417):
build the desired snapshot for the application from its component list,
overlaying the triggering component's new image, with a generated name and
the component label. -/
def prepareApplicationSnapshotForPipelineRun
    (applicationComponents : List Component) (componentName : String)
    (applicationName : String) (pullSpecResult : Except String String) :
    Except String ApplicationSnapshot :=
  match prepareComponentsLoop applicationComponents componentName
      pullSpecResult with
  | .error e => .error e
  | .ok comps =>
    .ok { name := applicationName ++ "-"
          application := applicationName
          components := comps
          labels := [("component", componentName)]
          conditions := [] }

/-- Go's strings.Split on a one-character separator: the list of maximal
separator-free chunks, with an empty chunk between adjacent separators and
at the ends; always non-empty. -/
def goSplit (s : List Char) (sep : Char) : List (List Char) :=
  match s with
  | [] => [[]]
  | c :: rest =>
    if c = sep then
      [] :: goSplit rest sep
    else
      match goSplit rest sep with
      | [] => [[c]]
      | chunk :: chunks => (c :: chunk) :: chunks

/-- getImagePullSpecFromPipelineRun (pipeline_adapter.go 271-282): the
output-image and digest lookups (tekton.GetOutputImage/GetOutputImageDigest,
outside src/) enter as Except inputs; on success the pull spec is
`strings.Split(outputImage, ":")[0] + "@" + imageDigest`. -/
def getImagePullSpecFromPipelineRun (outputImage : Except String String)
    (imageDigest : Except String String) : Except String String :=
  match outputImage with
  | .error e => .error e
  | .ok oi =>
    match imageDigest with
    | .error e => .error e
    | .ok digest =>
      .ok (String.mk ((goSplit oi.data ':').headD []) ++ "@" ++ digest)

/-- getApplicationSnapshotFromPipelineRun (pipeline_adapter.go 176-193):
read the `<type>.appstudio.openshift.io/snapshot` label; when present,
fetch the named snapshot from the store (`storeGet`); when absent, fail
with the source's error message. -/
def getApplicationSnapshotFromPipelineRun (lbls : List (String × String))
    (pipelineType : String)
    (storeGet : String → Except String ApplicationSnapshot) :
    Except String ApplicationSnapshot :=
  match List.lookup (pipelineType ++ ".appstudio.openshift.io/snapshot")
      lbls with
  | some snapshotName => storeGet snapshotName
  | none => .error "the pipeline has no snapshot associated with it"

/-- Inputs of one EnsureApplicationSnapshotPassedAllTests invocation, with
the external collaborators explicit: the tekton kind test and type lookup,
the store Get function, the outcomes of the scenario and pipeline-run
fetches, and whether the final status patch succeeds. -/
structure EnsureTestsInput where
  isIntegrationPipelineRun : Bool
  pipelineType : Except String String
  run : PipelineRun
  storeGet : String → Except String ApplicationSnapshot
  scenariosResult : Except String (List IntegrationTestScenario)
  runsResult : Except String (List PipelineRun)
  patchSucceeds : Bool

/-- EnsureApplicationSnapshotPassedAllTests (pipeline_adapter.go 101-172):
skip non-integration runs; resolve the type and the snapshot (errors
requeue); fetch scenarios (error requeues) and runs (error degrades to
requeue-or-stop); when the counts differ return Continue without writing;
otherwise reduce the outcomes and patch the snapshot condition. The second
component is the verdict-carrying snapshot actually persisted (none when
no verdict write happened). -/
def ensureApplicationSnapshotPassedAllTests (inp : EnsureTestsInput) :
    OperationResult × Option ApplicationSnapshot :=
  if !inp.isIntegrationPipelineRun then
    (.continueProcessing, none)
  else
    match inp.pipelineType with
    | .error _ => (.requeueWithError, none)
    | .ok pipelineType =>
      match getApplicationSnapshotFromPipelineRun inp.run.labels
          pipelineType inp.storeGet with
      | .error _ => (.requeueWithError, none)
      | .ok existingApplicationSnapshot =>
        match inp.scenariosResult with
        | .error _ => (.requeueWithError, none)
        | .ok integrationTestScenarios =>
          match inp.runsResult with
          | .error _ => (.requeueOnErrorOrStop, none)
          | .ok integrationPipelineRuns =>
            if integrationTestScenarios.length ≠
                integrationPipelineRuns.length then
              (.continueProcessing, none)
            else
              match determineIfAllIntegrationPipelinesPassed
                  integrationPipelineRuns with
              | .error _ => (.requeueOnErrorOrStop, none)
              | .ok allPassed =>
                if inp.patchSucceeds then
                  (.continueProcessing,
                    some (if allPassed then
                      markSnapshotAsPassed existingApplicationSnapshot
                        "All Integration Pipeline tests passed"
                    else
                      markSnapshotAsFailed existingApplicationSnapshot
                        "Some Integration pipeline tests failed"))
                else
                  (.requeueOnErrorOrStop, none)

/-- All task results of a run, as the nested loops of
calculateIntegrationPipelineRunOutcome visit them. -/
def allTaskRunResults (pipelineRun : PipelineRun) : List TaskRunResult :=
  pipelineRun.status.taskRuns.foldr
    (fun t acc => t.status.taskRunResults ++ acc) []

/-- The task results named HACBS_TEST_OUTPUT of a run. -/
def hacbsTaskResults (pipelineRun : PipelineRun) : List TaskRunResult :=
  (allTaskRunResults pipelineRun).filter
    (fun r => decide (r.name = "HACBS_TEST_OUTPUT"))

/-- Pass/fail of one parsed HACBS_TEST_OUTPUT entry: its `result` field is
"SUCCESS" or "SKIPPED"; a malformed entry is counted as not passing (it is
only inspected under a hypothesis ruling it out). -/
def resultPassing (r : TaskRunResult) : Bool :=
  match r.value with
  | some obj =>
    decide (jsonField obj "result" = JsonVal.str "SUCCESS") ||
    decide (jsonField obj "result" = JsonVal.str "SKIPPED")
  | none => false

/-- One task result is good when it is not a HACBS_TEST_OUTPUT entry, or
is a passing one. -/
def resultGood (r : TaskRunResult) : Bool :=
  if r.name = "HACBS_TEST_OUTPUT" then resultPassing r else true

/-- One TaskRun is good when all its task results are. -/
def taskRunGood (t : TaskRun) : Bool :=
  t.status.taskRunResults.all resultGood

/-- Sample snapshot component: component-a with a digest-pinned image. -/
def componentImageA : ApplicationSnapshotComponent :=
  ⟨"component-a", "registry.io/a@sha256:aaa"⟩

/-- Sample snapshot component: component-b with a digest-pinned image. -/
def componentImageB : ApplicationSnapshotComponent :=
  ⟨"component-b", "registry.io/b@sha256:bbb"⟩

/-- Sample snapshot holding components [a, b]. -/
def snapshotAB : ApplicationSnapshot :=
  ⟨"snap-ab", "app1", [componentImageA, componentImageB], [], []⟩

/-- Sample snapshot holding the same components in the order [b, a]. -/
def snapshotBA : ApplicationSnapshot :=
  ⟨"snap-ba", "app1", [componentImageB, componentImageA], [], []⟩

/-- Sample snapshot holding the duplicated component list [a, a]. -/
def snapshotAA : ApplicationSnapshot :=
  ⟨"snap-aa", "app1", [componentImageA, componentImageA], [], []⟩

/-- Sample succeeded test run completed at instant 1. -/
def succeededRunEarly : PipelineRun := ⟨"run-early", [], ⟨true, 1, []⟩⟩

/-- Sample succeeded test run completed at instant 2. -/
def succeededRunLate : PipelineRun := ⟨"run-late", [], ⟨true, 2, []⟩⟩

/-- Sample task result named HACBS_TEST_OUTPUT whose payload parses to
`{"result": "SUCCESS"}`. -/
def hacbsSuccessResult : TaskRunResult :=
  ⟨"HACBS_TEST_OUTPUT", some [("result", JsonVal.str "SUCCESS")]⟩

/-- Sample task result named HACBS_TEST_OUTPUT whose payload parses to
`{"result": "FAILURE"}`. -/
def hacbsFailureResult : TaskRunResult :=
  ⟨"HACBS_TEST_OUTPUT", some [("result", JsonVal.str "FAILURE")]⟩

/-- Sample test run whose single task reported a SUCCESS test output. -/
def runWithSuccessOutput : PipelineRun :=
  ⟨"run-success", [], ⟨true, 3, [⟨"test-task", ⟨[hacbsSuccessResult]⟩⟩]⟩⟩

/-- Sample test run whose single task reported a FAILURE test output. -/
def runWithFailureOutput : PipelineRun :=
  ⟨"run-failure", [], ⟨true, 4, [⟨"test-task", ⟨[hacbsFailureResult]⟩⟩]⟩⟩

/-- Sample scenario carrying no optional label. -/
def scenarioOne : IntegrationTestScenario := ⟨"scenario-1", "app1", []⟩

/-- Sample scenario labeled optional=true. -/
def scenarioTwo : IntegrationTestScenario :=
  ⟨"scenario-2", "app1", [("test.appstudio.openshift.io/optional", "true")]⟩

/-- Sample scenario labeled optional=false. -/
def scenarioOptionalFalse : IntegrationTestScenario :=
  ⟨"scenario-3", "app1", [("test.appstudio.openshift.io/optional", "false")]⟩

/-- Sample test run labelled with a snapshot reference. -/
def runWithSnapshotLabel : PipelineRun :=
  ⟨"test-run",
   [("test.appstudio.openshift.io/snapshot", "snap-ab")],
   ⟨true, 5, []⟩⟩

/-- Sample test run carrying no snapshot reference label. -/
def runWithoutSnapshotLabel : PipelineRun :=
  ⟨"test-run-nolabel",
   [("pipelines.appstudio.openshift.io/type", "test")],
   ⟨true, 6, []⟩⟩

/-- Sample aggregator input with two required scenarios but only one
resolved run. -/
def incompleteInput : EnsureTestsInput :=
  { isIntegrationPipelineRun := true
    pipelineType := Except.ok "test"
    run := runWithSnapshotLabel
    storeGet := fun _ => Except.ok snapshotAB
    scenariosResult := Except.ok [scenarioOne, scenarioTwo]
    runsResult := Except.ok [runWithSuccessOutput]
    patchSucceeds := true }

/-- Sample aggregator input whose triggering run has no snapshot label. -/
def missingSnapshotInput : EnsureTestsInput :=
  { isIntegrationPipelineRun := true
    pipelineType := Except.ok "test"
    run := runWithoutSnapshotLabel
    storeGet := fun _ => Except.ok snapshotAB
    scenariosResult := Except.ok [scenarioOne]
    runsResult := Except.ok [runWithSuccessOutput]
    patchSucceeds := true }

/-- Second sample input without a snapshot label (empty label map). -/
def missingSnapshotInputAlt : EnsureTestsInput :=
  { isIntegrationPipelineRun := true
    pipelineType := Except.ok "test"
    run := ⟨"test-run-bare", [], ⟨true, 7, []⟩⟩
    storeGet := fun _ => Except.error "not found"
    scenariosResult := Except.ok []
    runsResult := Except.ok []
    patchSucceeds := true }

/-! Helper lemmas shared by several claim proofs. -/

theorem bool_eq_of_iff {a b : Bool} (h : a = true ↔ b = true) : a = b := by
  cases a <;> cases b <;> simp_all

theorem goSplit_ne_nil : ∀ (l : List Char) (sep : Char), goSplit l sep ≠ []
  | [], sep => by simp [goSplit]
  | c :: rest, sep => by
    simp only [goSplit]
    split
    · simp
    · cases h : goSplit rest sep with
      | nil => exact absurd h (goSplit_ne_nil rest sep)
      | cons chunk chunks => simp

theorem goSplit_headD (sep : Char) :
    ∀ l : List Char,
      (goSplit l sep).headD [] = l.takeWhile (fun c => decide (c ≠ sep))
  | [] => by simp [goSplit]
  | c :: rest => by
    by_cases hc : c = sep
    · simp [goSplit, hc, List.takeWhile_cons]
    · cases h : goSplit rest sep with
      | nil => exact absurd h (goSplit_ne_nil rest sep)
      | cons chunk chunks =>
        have ih := goSplit_headD sep rest
        rw [h] at ih
        simp only [List.headD_cons] at ih
        simp [goSplit, hc, h, List.takeWhile_cons, ih]

/-- Claim C10: the image pull spec built by getImagePullSpecFromPipelineRun
is the output image truncated at its first ':' character, concatenated with
"@" and the output image digest; everything from the first colon onward
(for example a port-carrying registry host's remainder) is discarded. -/
theorem getImagePullSpec_truncates_at_first_colon
    (outputImage imageDigest : String) :
    getImagePullSpecFromPipelineRun (.ok outputImage) (.ok imageDigest) =
      .ok (String.mk (outputImage.data.takeWhile (fun c => decide (c ≠ ':')))
        ++ "@" ++ imageDigest) := by
  simp only [getImagePullSpecFromPipelineRun]
  rw [goSplit_headD]

theorem prepareComponentsLoop_ok :
    ∀ (applicationComponents : List Component) (componentName : String)
      (pullSpec : String),
      prepareComponentsLoop applicationComponents componentName
          (.ok pullSpec) =
        .ok (applicationComponents.map (fun c =>
          ⟨c.name, if c.name = componentName then pullSpec
                   else c.containerImage⟩))
  | [], _, _ => rfl
  | c :: rest, componentName, pullSpec => by
    have ih := prepareComponentsLoop_ok rest componentName pullSpec
    by_cases hc : c.name = componentName <;>
      simp [prepareComponentsLoop, hc, ih]

/-- Claim C8: the desired snapshot prepared for a build PipelineRun holds
exactly one entry per Component of the Application; every component keeps
its currently-recorded container image except those named like the
triggering component, whose entry carries the image pull spec derived from
the build PipelineRun. -/
theorem prepareApplicationSnapshot_components_spec
    (applicationComponents : List Component)
    (componentName applicationName pullSpec : String) :
    prepareApplicationSnapshotForPipelineRun applicationComponents
        componentName applicationName (.ok pullSpec) =
      .ok { name := applicationName ++ "-"
            application := applicationName
            components := applicationComponents.map (fun c =>
              ⟨c.name, if c.name = componentName then pullSpec
                       else c.containerImage⟩)
            labels := [("component", componentName)]
            conditions := [] } := by
  simp [prepareApplicationSnapshotForPipelineRun, prepareComponentsLoop_ok]

/-- Claim C5: a TestScenario scoped to the Application is in the required
set iff its optional label's value is not the literal string "false"; a
scenario with no optional label is included, and one labeled
optional="true" is included as well. -/
theorem requiredScenarios_mem_iff (scenarios : List IntegrationTestScenario)
    (s : IntegrationTestScenario) :
    s ∈ getRequiredIntegrationTestScenariosForApplication scenarios ↔
      s ∈ scenarios ∧
        List.lookup "test.appstudio.openshift.io/optional" s.labels ≠
          some "false" := by
  simp only [getRequiredIntegrationTestScenariosForApplication,
    List.mem_filter, notInRequirementMatches]
  cases h : List.lookup "test.appstudio.openshift.io/optional" s.labels with
  | none => simp [h]
  | some v => simp [h, List.contains_cons]

/-- Claim C5 witness: the scenario labeled optional="true" is required
among a three-scenario list that also holds an unlabeled and an
optional="false" scenario. -/
theorem requiredScenarios_mem_iff_witness :
    scenarioTwo ∈ getRequiredIntegrationTestScenariosForApplication
        [scenarioOne, scenarioTwo, scenarioOptionalFalse] ↔
      scenarioTwo ∈ [scenarioOne, scenarioTwo, scenarioOptionalFalse] ∧
        List.lookup "test.appstudio.openshift.io/optional"
            scenarioTwo.labels ≠ some "false" :=
  requiredScenarios_mem_iff [scenarioOne, scenarioTwo, scenarioOptionalFalse]
    scenarioTwo

theorem compare_eq_true_iff (s1 s2 : ApplicationSnapshot) :
    compareApplicationSnapshots s1 s2 = true ↔
      s1.components.length = s2.components.length ∧
        ∀ c ∈ s1.components, c ∈ s2.components := by
  simp [compareApplicationSnapshots, List.all_eq_true, List.any_eq_true]

theorem compare_refl (s : ApplicationSnapshot) :
    compareApplicationSnapshots s s = true :=
  (compare_eq_true_iff s s).mpr ⟨rfl, fun _ hc => hc⟩

theorem all_perm {α : Type} (p : α → Bool) {l1 l2 : List α}
    (h : l1.Perm l2) : l1.all p = l2.all p :=
  bool_eq_of_iff (by simp [List.all_eq_true, h.mem_iff])

theorem any_perm {α : Type} (p : α → Bool) {l1 l2 : List α}
    (h : l1.Perm l2) : l1.any p = l2.any p :=
  bool_eq_of_iff (by simp [List.any_eq_true, h.mem_iff])

theorem all_congr_of_pointwise {α : Type} {p q : α → Bool} {l : List α}
    (h : ∀ x ∈ l, p x = q x) : l.all p = l.all q :=
  bool_eq_of_iff (by
    simp only [List.all_eq_true]
    exact ⟨fun ha x hx => (h x hx) ▸ ha x hx,
           fun ha x hx => (h x hx).symm ▸ ha x hx⟩)

theorem compare_perm (s1 s2 t1 t2 : ApplicationSnapshot)
    (hp1 : t1.components.Perm s1.components)
    (hp2 : t2.components.Perm s2.components) :
    compareApplicationSnapshots t1 t2 = compareApplicationSnapshots s1 s2 := by
  unfold compareApplicationSnapshots
  rw [hp1.length_eq, hp2.length_eq]
  congr 1
  rw [all_congr_of_pointwise
    (fun c _ => any_perm (fun c2 => decide (c2 = c)) hp2)]
  exact all_perm _ hp1

theorem list_subset_of_nodup {α : Type} [DecidableEq α] {l1 l2 : List α}
    (h1 : l1.Nodup) (h2 : l2.Nodup) (hlen : l1.length = l2.length)
    (hsub : ∀ c ∈ l1, c ∈ l2) : ∀ c ∈ l2, c ∈ l1 := by
  have hfin : l1.toFinset ⊆ l2.toFinset := fun x hx =>
    List.mem_toFinset.mpr (hsub x (List.mem_toFinset.mp hx))
  have hcard : l2.toFinset.card ≤ l1.toFinset.card := by
    rw [List.toFinset_card_of_nodup h1, List.toFinset_card_of_nodup h2, hlen]
  have heq := Finset.eq_of_subset_of_card_le hfin hcard
  intro c hc
  have hmem : c ∈ l1.toFinset := by
    rw [heq]
    exact List.mem_toFinset.mpr hc
  exact List.mem_toFinset.mp hmem

theorem compare_symm_of_nodup (s1 s2 : ApplicationSnapshot)
    (h1 : s1.components.Nodup) (h2 : s2.components.Nodup) :
    compareApplicationSnapshots s1 s2 = compareApplicationSnapshots s2 s1 := by
  apply bool_eq_of_iff
  rw [compare_eq_true_iff, compare_eq_true_iff]
  constructor
  · rintro ⟨hlen, hsub⟩
    exact ⟨hlen.symm, list_subset_of_nodup h1 h2 hlen hsub⟩
  · rintro ⟨hlen, hsub⟩
    exact ⟨hlen.symm, list_subset_of_nodup h2 h1 hlen hsub⟩

/-- Claim C6 counterexample: the comparison is not symmetric on every pair
of snapshots — with the duplicated component list [a, a] against [a, b]
the comparison accepts one direction and rejects the other. -/
theorem compareApplicationSnapshots_not_symmetric_cx :
    compareApplicationSnapshots snapshotAA snapshotAB = true ∧
    compareApplicationSnapshots snapshotAB snapshotAA = false := by
  decide

/-- Claim C6 (amended): the comparison is insensitive to the ordering of
either snapshot's component slice (permuting either list leaves its value
unchanged), and it is symmetric whenever neither snapshot's component list
contains duplicate entries. -/
theorem compareApplicationSnapshots_perm_and_nodup_symm
    (s1 s2 t1 t2 : ApplicationSnapshot)
    (hp1 : t1.components.Perm s1.components)
    (hp2 : t2.components.Perm s2.components) :
    compareApplicationSnapshots t1 t2 = compareApplicationSnapshots s1 s2 ∧
    (s1.components.Nodup → s2.components.Nodup →
      compareApplicationSnapshots s1 s2 =
        compareApplicationSnapshots s2 s1) :=
  ⟨compare_perm s1 s2 t1 t2 hp1 hp2,
   fun hn1 hn2 => compare_symm_of_nodup s1 s2 hn1 hn2⟩

/-- Claim C6 witness: the snapshot with components [b, a] compares against
[a, b] exactly as [a, b] does, and the duplicate-free pair is symmetric. -/
theorem compareApplicationSnapshots_perm_witness :
    (compareApplicationSnapshots snapshotBA snapshotAB =
      compareApplicationSnapshots snapshotAB snapshotAB) ∧
    (snapshotAB.components.Nodup → snapshotAB.components.Nodup →
      compareApplicationSnapshots snapshotAB snapshotAB =
        compareApplicationSnapshots snapshotAB snapshotAB) :=
  compareApplicationSnapshots_perm_and_nodup_symm snapshotAB snapshotAB
    snapshotBA snapshotAB (by decide) (by decide)

/-- Claim C7: feeding the same build completion twice (no other events)
creates no second snapshot — the second run finds the snapshot the first
run ensured and returns Continue leaving the store untouched, and when no
snapshot matching the desired combination pre-existed, exactly one
matching snapshot is in the store afterwards. -/
theorem ensureApplicationSnapshotExists_idempotent
    (expected : ApplicationSnapshot) (store : List ApplicationSnapshot) :
    ensureApplicationSnapshotExists true (.ok expected)
        ((ensureApplicationSnapshotExists true (.ok expected) store).2) =
      (OperationResult.continueProcessing,
        (ensureApplicationSnapshotExists true (.ok expected) store).2) ∧
    ((store.countP fun s => compareApplicationSnapshots expected s) = 0 →
      (((ensureApplicationSnapshotExists true (.ok expected)
          store).2).countP
        fun s => compareApplicationSnapshots expected s) = 1) := by
  cases h : store.find? (fun s => compareApplicationSnapshots expected s) with
  | some m =>
    constructor
    · simp [ensureApplicationSnapshotExists,
        findMatchingApplicationSnapshot, h]
    · intro h0
      exfalso
      rw [List.countP_eq_zero] at h0
      exact h0 m (List.mem_of_find?_eq_some h) (List.find?_some h)
  | none =>
    constructor
    · simp [ensureApplicationSnapshotExists,
        findMatchingApplicationSnapshot, h, List.find?_append, compare_refl]
    · intro h0
      simp [ensureApplicationSnapshotExists,
        findMatchingApplicationSnapshot, h, List.countP_append, h0,
        List.countP_cons, compare_refl]

/-- Claim C7 witness: starting from an empty store, ensuring the snapshot
[a, b] twice leaves the store of the first run unchanged and that store
holds exactly one snapshot matching the combination. -/
theorem ensureApplicationSnapshotExists_idempotent_witness :
    (ensureApplicationSnapshotExists true (.ok snapshotAB)
        ((ensureApplicationSnapshotExists true (.ok snapshotAB) []).2) =
      (OperationResult.continueProcessing,
        (ensureApplicationSnapshotExists true (.ok snapshotAB) []).2)) ∧
    ((((ensureApplicationSnapshotExists true (.ok snapshotAB) []).2).countP
        fun s => compareApplicationSnapshots snapshotAB s) = 1) :=
  ⟨(ensureApplicationSnapshotExists_idempotent snapshotAB []).1,
   (ensureApplicationSnapshotExists_idempotent snapshotAB []).2 (by decide)⟩

theorem latestLoop_none :
    ∀ (items : List PipelineRun) (acc : Option PipelineRun),
      latestLoop items acc = none ↔
        acc = none ∧ ∀ p ∈ items, p.status.succeeded = false
  | [], acc => by simp [latestLoop]
  | pr :: rest, acc => by
    by_cases hs : pr.status.succeeded = true
    · cases acc with
      | none =>
        rw [show latestLoop (pr :: rest) none = latestLoop rest (some pr)
          from by simp [latestLoop, hs]]
        rw [latestLoop_none rest (some pr)]
        simp [hs]
      | some best =>
        by_cases ht :
            pr.status.completionTime > best.status.completionTime
        · rw [show latestLoop (pr :: rest) (some best) =
              latestLoop rest (some pr) from by simp [latestLoop, hs, ht]]
          rw [latestLoop_none rest (some pr)]
          simp [hs]
        · rw [show latestLoop (pr :: rest) (some best) =
              latestLoop rest (some best) from by simp [latestLoop, hs, ht]]
          rw [latestLoop_none rest (some best)]
          simp [hs]
    · rw [show latestLoop (pr :: rest) acc = latestLoop rest acc
        from by simp [latestLoop, hs]]
      rw [latestLoop_none rest acc]
      simp [List.forall_mem_cons, hs]

theorem latestLoop_some :
    ∀ (items : List PipelineRun) (acc : Option PipelineRun)
      (p : PipelineRun),
      latestLoop items acc = some p →
        ((p ∈ items ∧ p.status.succeeded = true) ∨ acc = some p) ∧
        (∀ q ∈ items, q.status.succeeded = true →
          q.status.completionTime ≤ p.status.completionTime) ∧
        (∀ a, acc = some a →
          a.status.completionTime ≤ p.status.completionTime)
  | [], acc, p => by
    intro h
    simp only [latestLoop] at h
    refine ⟨Or.inr h, by simp, ?_⟩
    intro a ha
    rw [h] at ha
    injection ha with ha2
    rw [ha2]
  | pr :: rest, acc, p => by
    intro h
    by_cases hs : pr.status.succeeded = true
    · cases acc with
      | none =>
        have h2 : latestLoop rest (some pr) = some p := by
          simpa [latestLoop, hs] using h
        obtain ⟨hmem, hmax, hacc⟩ := latestLoop_some rest (some pr) p h2
        refine ⟨?_, ?_, ?_⟩
        · rcases hmem with ⟨hm, hsucc⟩ | heq
          · exact Or.inl ⟨List.mem_cons_of_mem pr hm, hsucc⟩
          · injection heq with heq2
            refine Or.inl ⟨?_, ?_⟩
            · rw [← heq2]; exact List.mem_cons_self pr rest
            · rw [← heq2]; exact hs
        · intro q hq hqs
          rcases List.mem_cons.mp hq with rfl | hq2
          · exact hacc q rfl
          · exact hmax q hq2 hqs
        · intro a ha
          exact absurd ha (by simp)
      | some best =>
        by_cases ht : pr.status.completionTime > best.status.completionTime
        · have h2 : latestLoop rest (some pr) = some p := by
            simpa [latestLoop, hs, ht] using h
          obtain ⟨hmem, hmax, hacc⟩ := latestLoop_some rest (some pr) p h2
          refine ⟨?_, ?_, ?_⟩
          · rcases hmem with ⟨hm, hsucc⟩ | heq
            · exact Or.inl ⟨List.mem_cons_of_mem pr hm, hsucc⟩
            · injection heq with heq2
              refine Or.inl ⟨?_, ?_⟩
              · rw [← heq2]; exact List.mem_cons_self pr rest
              · rw [← heq2]; exact hs
          · intro q hq hqs
            rcases List.mem_cons.mp hq with rfl | hq2
            · exact hacc q rfl
            · exact hmax q hq2 hqs
          · intro a ha
            injection ha with ha2
            rw [← ha2]
            exact le_trans (le_of_lt ht) (hacc pr rfl)
        · have h2 : latestLoop rest (some best) = some p := by
            simpa [latestLoop, hs, ht] using h
          obtain ⟨hmem, hmax, hacc⟩ := latestLoop_some rest (some best) p h2
          refine ⟨?_, ?_, ?_⟩
          · rcases hmem with ⟨hm, hsucc⟩ | heq
            · exact Or.inl ⟨List.mem_cons_of_mem pr hm, hsucc⟩
            · exact Or.inr heq
          · intro q hq hqs
            rcases List.mem_cons.mp hq with rfl | hq2
            · exact le_trans (le_of_not_lt ht) (hacc best rfl)
            · exact hmax q hq2 hqs
          · intro a ha
            injection ha with ha2
            rw [← ha2]
            exact hacc best rfl
    · have h2 : latestLoop rest acc = some p := by
        simpa [latestLoop, hs] using h
      obtain ⟨hmem, hmax, hacc⟩ := latestLoop_some rest acc p h2
      refine ⟨?_, ?_, ?_⟩
      · rcases hmem with ⟨hm, hsucc⟩ | heq
        · exact Or.inl ⟨List.mem_cons_of_mem pr hm, hsucc⟩
        · exact Or.inr heq
      · intro q hq hqs
        rcases List.mem_cons.mp hq with rfl | hq2
        · exact absurd hqs hs
        · exact hmax q hq2 hqs
      · exact hacc

/-- Claim C4: among the listed test PipelineRuns only those whose
Succeeded condition is true are considered — when none is succeeded the
result is nil with no error, and a returned run is a succeeded listed run
whose completion timestamp is maximal among all succeeded listed runs (so
with two succeeded runs of different completion times the later one is
selected). -/
theorem getLatestPipelineRun_spec (items : List PipelineRun) :
    (getLatestPipelineRunForApplicationSnapshotAndScenario items = none ↔
      ∀ p ∈ items, p.status.succeeded = false) ∧
    (∀ p, getLatestPipelineRunForApplicationSnapshotAndScenario items =
        some p →
      p ∈ items ∧ p.status.succeeded = true ∧
        ∀ q ∈ items, q.status.succeeded = true →
          q.status.completionTime ≤ p.status.completionTime) := by
  constructor
  · rw [getLatestPipelineRunForApplicationSnapshotAndScenario,
      latestLoop_none]
    simp
  · intro p hp
    obtain ⟨hmem, hmax, _⟩ := latestLoop_some items none p hp
    rcases hmem with ⟨hm, hsucc⟩ | heq
    · exact ⟨hm, hsucc, hmax⟩
    · exact absurd heq (by simp)

/-- Claim C4 witness: of two succeeded runs completed at instants 1 and 2,
the one completed at 2 is selected, is succeeded, and its completion time
dominates both. -/
theorem getLatestPipelineRun_spec_witness :
    succeededRunLate ∈ [succeededRunEarly, succeededRunLate] ∧
    succeededRunLate.status.succeeded = true ∧
    ∀ q ∈ [succeededRunEarly, succeededRunLate],
      q.status.succeeded = true →
        q.status.completionTime ≤ succeededRunLate.status.completionTime :=
  (getLatestPipelineRun_spec [succeededRunEarly, succeededRunLate]).2
    succeededRunLate (by decide)

theorem scanTaskRunResults_eq :
    ∀ l : List TaskRunResult,
      (∀ r ∈ l, r.name = "HACBS_TEST_OUTPUT" → r.value ≠ none) →
      scanTaskRunResults l = .ok (l.all resultGood)
  | [] => by intro _; rfl
  | r :: rest => by
    intro h
    have hr := h r (List.mem_cons_self r rest)
    have ih := scanTaskRunResults_eq rest
      (fun x hx hx2 => h x (List.mem_cons_of_mem r hx) hx2)
    simp only [scanTaskRunResults, List.all_cons]
    by_cases hn : r.name = "HACBS_TEST_OUTPUT"
    · simp only [if_pos hn]
      cases hv : r.value with
      | none => exact absurd hv (hr hn)
      | some obj =>
        by_cases hp : jsonField obj "result" = JsonVal.str "SUCCESS" ∨
            jsonField obj "result" = JsonVal.str "SKIPPED"
        · show (if jsonField obj "result" = JsonVal.str "SUCCESS" ∨
              jsonField obj "result" = JsonVal.str "SKIPPED" then
              scanTaskRunResults rest else Except.ok false) = _
          rw [if_pos hp, ih]
          have hg : resultGood r = true := by
            simp only [resultGood, if_pos hn, resultPassing, hv]
            simpa using hp
          rw [hg, Bool.true_and]
        · show (if jsonField obj "result" = JsonVal.str "SUCCESS" ∨
              jsonField obj "result" = JsonVal.str "SKIPPED" then
              scanTaskRunResults rest else Except.ok false) = _
          rw [if_neg hp]
          have hg : resultGood r = false := by
            simp only [resultGood, if_pos hn, resultPassing, hv]
            push_neg at hp
            simp [hp.1, hp.2]
          rw [hg, Bool.false_and]
    · simp only [if_neg hn]
      rw [ih]
      have hg : resultGood r = true := by simp [resultGood, hn]
      rw [hg, Bool.true_and]

theorem scanTaskRuns_eq :
    ∀ ts : List TaskRun,
      (∀ t ∈ ts, ∀ r ∈ t.status.taskRunResults,
        r.name = "HACBS_TEST_OUTPUT" → r.value ≠ none) →
      scanTaskRuns ts = .ok (ts.all taskRunGood)
  | [] => by intro _; rfl
  | t :: rest => by
    intro h
    have h1 := scanTaskRunResults_eq t.status.taskRunResults
      (h t (List.mem_cons_self t rest))
    have ih := scanTaskRuns_eq rest
      (fun x hx => h x (List.mem_cons_of_mem t hx))
    simp only [scanTaskRuns, h1, List.all_cons, taskRunGood]
    cases hg : t.status.taskRunResults.all resultGood with
    | true => simpa using ih
    | false => simp

theorem mem_foldr_taskResults (r : TaskRunResult) :
    ∀ ts : List TaskRun,
      r ∈ ts.foldr (fun t acc => t.status.taskRunResults ++ acc) [] ↔
        ∃ t ∈ ts, r ∈ t.status.taskRunResults
  | [] => by simp
  | t :: rest => by
    simp [List.mem_append, mem_foldr_taskResults r rest]

theorem all_taskRunGood_iff (pr : PipelineRun) :
    pr.status.taskRuns.all taskRunGood = true ↔
      ∀ r ∈ hacbsTaskResults pr, resultPassing r = true := by
  simp only [List.all_eq_true, taskRunGood, hacbsTaskResults,
    allTaskRunResults, List.mem_filter, mem_foldr_taskResults,
    decide_eq_true_eq]
  constructor
  · rintro hall r ⟨⟨t, ht, hr⟩, hname⟩
    have h2 := hall t ht r hr
    simpa [resultGood, hname] using h2
  · intro hall t ht r hr
    by_cases hname : r.name = "HACBS_TEST_OUTPUT"
    · have := hall r ⟨⟨t, ht, hr⟩, hname⟩
      simpa [resultGood, hname] using this
    · simp [resultGood, hname]

/-- Claim C2: under the assumption that every HACBS_TEST_OUTPUT task
result of the run parses, the per-run outcome computation reports false
exactly when some HACBS_TEST_OUTPUT entry's `result` field (nil when
absent, per Go map semantics) is neither "SUCCESS" nor "SKIPPED"; a run
with no HACBS_TEST_OUTPUT task results at all is reported as passed. -/
theorem calculateOutcome_fails_iff (pr : PipelineRun)
    (h : ∀ r ∈ hacbsTaskResults pr, r.value ≠ none) :
    (calculateIntegrationPipelineRunOutcome pr = .ok false ↔
      ∃ r ∈ hacbsTaskResults pr, resultPassing r = false) ∧
    (hacbsTaskResults pr = [] →
      calculateIntegrationPipelineRunOutcome pr = .ok true) := by
  have hn : ∀ t ∈ pr.status.taskRuns, ∀ r ∈ t.status.taskRunResults,
      r.name = "HACBS_TEST_OUTPUT" → r.value ≠ none := by
    intro t ht r hr hname
    apply h
    simp only [hacbsTaskResults, allTaskRunResults, List.mem_filter,
      mem_foldr_taskResults, decide_eq_true_eq]
    exact ⟨⟨t, ht, hr⟩, hname⟩
  have hcalc : calculateIntegrationPipelineRunOutcome pr =
      .ok (pr.status.taskRuns.all taskRunGood) :=
    scanTaskRuns_eq pr.status.taskRuns hn
  constructor
  · rw [hcalc]
    constructor
    · intro heq
      simp only [Except.ok.injEq] at heq
      have hne : ¬ pr.status.taskRuns.all taskRunGood = true := by
        simp [heq]
      rw [all_taskRunGood_iff] at hne
      push_neg at hne
      obtain ⟨r, hr, hrp⟩ := hne
      exact ⟨r, hr, by simpa using hrp⟩
    · rintro ⟨r, hr, hrp⟩
      have hne : ¬ ∀ x ∈ hacbsTaskResults pr, resultPassing x = true := by
        intro hall
        rw [hall r hr] at hrp
        simp at hrp
      rw [← all_taskRunGood_iff] at hne
      have hf : pr.status.taskRuns.all taskRunGood = false := by
        cases hb : pr.status.taskRuns.all taskRunGood with
        | true => exact absurd hb hne
        | false => rfl
      rw [hf]
  · intro hempty
    rw [hcalc]
    have ht : pr.status.taskRuns.all taskRunGood = true := by
      rw [all_taskRunGood_iff, hempty]
      simp
    rw [ht]

/-- Claim C2 witness: the run whose single task reported
`{"result": "FAILURE"}` satisfies the parse hypothesis and the theorem's
conclusion at that concrete run. -/
theorem calculateOutcome_fails_iff_witness :
    (calculateIntegrationPipelineRunOutcome runWithFailureOutput =
        .ok false ↔
      ∃ r ∈ hacbsTaskResults runWithFailureOutput,
        resultPassing r = false) ∧
    (hacbsTaskResults runWithFailureOutput = [] →
      calculateIntegrationPipelineRunOutcome runWithFailureOutput =
        .ok true) :=
  calculateOutcome_fails_iff runWithFailureOutput (by decide)

theorem determineLoop_ok :
    ∀ (runs : List PipelineRun) (acc b : Bool),
      determineLoop runs acc = .ok b →
      (b = true ↔ acc = true ∧ ∀ r ∈ runs,
        calculateIntegrationPipelineRunOutcome r = .ok true)
  | [], acc, b => by
    intro h
    simp only [determineLoop, Except.ok.injEq] at h
    subst h
    simp
  | r :: rest, acc, b => by
    intro h
    simp only [determineLoop] at h
    cases hc : calculateIntegrationPipelineRunOutcome r with
    | error e =>
      rw [hc] at h
      simp at h
    | ok o =>
      rw [hc] at h
      have ih := determineLoop_ok rest (acc && o) b h
      rw [ih]
      simp [Bool.and_eq_true, List.forall_mem_cons, hc, and_assoc]

theorem find?_map_replace (conds : List Condition) (c : Condition) :
    conds.any (fun x => x.type = c.type) = true →
    (conds.map (fun x => if x.type = c.type then c else x)).find?
      (fun x => x.type = c.type) = some c := by
  induction conds with
  | nil => simp
  | cons x rest ih =>
    intro hany
    by_cases hx : x.type = c.type
    · rw [List.map_cons, if_pos hx]
      rw [List.find?_cons_of_pos _ (by simp)]
    · rw [List.map_cons, if_neg hx]
      rw [List.find?_cons_of_neg _ (by simp [hx])]
      apply ih
      simpa [List.any_cons, hx] using hany

theorem findCondition_setStatusCondition (conds : List Condition)
    (c : Condition) :
    findCondition (setStatusCondition conds c) c.type = some c := by
  unfold findCondition setStatusCondition
  cases hany : conds.any (fun x => x.type = c.type) with
  | true =>
    rw [if_pos rfl]
    exact find?_map_replace conds c hany
  | false =>
    rw [if_neg (by simp)]
    rw [List.find?_append]
    have h1 : conds.find? (fun x => decide (x.type = c.type)) = none := by
      rw [List.find?_eq_none]
      intro x hx
      simp only [decide_eq_true_eq]
      intro hxc
      have : conds.any (fun x => x.type = c.type) = true :=
        List.any_eq_true.mpr ⟨x, hx, by simp [hxc]⟩
      rw [hany] at this
      simp at this
    rw [h1]
    simp [List.find?_cons_of_pos]

/-- Claim C1: whenever the reduction over the resolved test PipelineRuns
returns an outcome, the verdict written to the Snapshot is the
HACBSTestSucceeded condition with status true and reason "Passed" exactly
when every resolved run passed the per-run outcome check, and with status
false and reason "Failed" otherwise. -/
theorem verdict_passed_iff_all_runs_passed (snap : ApplicationSnapshot)
    (runs : List PipelineRun) (b : Bool)
    (h : determineIfAllIntegrationPipelinesPassed runs = .ok b) :
    ∃ s, writeSnapshotVerdict snap runs = .ok s ∧
      findCondition s.conditions "HACBSTestSucceeded" =
        some ⟨"HACBSTestSucceeded", b,
          if b then "Passed" else "Failed",
          if b then "All Integration Pipeline tests passed"
          else "Some Integration pipeline tests failed"⟩ ∧
      (b = true ↔ ∀ r ∈ runs,
        calculateIntegrationPipelineRunOutcome r = .ok true) := by
  have hiff : b = true ↔ ∀ r ∈ runs,
      calculateIntegrationPipelineRunOutcome r = .ok true := by
    rw [determineLoop_ok runs true b h]
    simp
  cases b with
  | true =>
    refine ⟨markSnapshotAsPassed snap
      "All Integration Pipeline tests passed", ?_, ?_, hiff⟩
    · simp [writeSnapshotVerdict, h]
    · simp only [markSnapshotAsPassed]
      have hf := findCondition_setStatusCondition snap.conditions
        ⟨"HACBSTestSucceeded", true, "Passed",
          "All Integration Pipeline tests passed"⟩
      simpa using hf
  | false =>
    refine ⟨markSnapshotAsFailed snap
      "Some Integration pipeline tests failed", ?_, ?_, hiff⟩
    · simp [writeSnapshotVerdict, h]
    · simp only [markSnapshotAsFailed]
      have hf := findCondition_setStatusCondition snap.conditions
        ⟨"HACBSTestSucceeded", false, "Failed",
          "Some Integration pipeline tests failed"⟩
      simpa using hf

/-- Claim C1 witness: with the single resolved run whose test output is
SUCCESS, the verdict written on the sample snapshot is the Passed
condition. -/
theorem verdict_passed_iff_all_runs_passed_witness :
    ∃ s, writeSnapshotVerdict snapshotAB [runWithSuccessOutput] = .ok s ∧
      findCondition s.conditions "HACBSTestSucceeded" =
        some ⟨"HACBSTestSucceeded", true,
          if true then "Passed" else "Failed",
          if true then "All Integration Pipeline tests passed"
          else "Some Integration pipeline tests failed"⟩ ∧
      (true = true ↔ ∀ r ∈ [runWithSuccessOutput],
        calculateIntegrationPipelineRunOutcome r = .ok true) :=
  verdict_passed_iff_all_runs_passed snapshotAB [runWithSuccessOutput]
    true (by rfl)

/-- Claim C3: a verdict is written only when the number of resolved
PipelineRuns exactly equals the number of required scenarios; when the
counts differ the aggregator reports incomplete and the orchestrator
returns Continue with no verdict written. -/
theorem verdict_written_iff_counts_equal (inp : EnsureTestsInput) :
    ((ensureApplicationSnapshotPassedAllTests inp).2 ≠ none →
      ∃ scenarios runs,
        inp.scenariosResult = .ok scenarios ∧
        inp.runsResult = .ok runs ∧
        scenarios.length = runs.length) ∧
    (∀ (pipelineType : String) (snap : ApplicationSnapshot)
        (scenarios : List IntegrationTestScenario)
        (runs : List PipelineRun),
      inp.isIntegrationPipelineRun = true →
      inp.pipelineType = .ok pipelineType →
      getApplicationSnapshotFromPipelineRun inp.run.labels pipelineType
        inp.storeGet = .ok snap →
      inp.scenariosResult = .ok scenarios →
      inp.runsResult = .ok runs →
      scenarios.length ≠ runs.length →
      ensureApplicationSnapshotPassedAllTests inp =
        (.continueProcessing, none)) := by
  constructor
  · intro hne
    cases hb : inp.isIntegrationPipelineRun with
    | false =>
      exfalso
      apply hne
      simp [ensureApplicationSnapshotPassedAllTests, hb]
    | true =>
      cases hp : inp.pipelineType with
      | error e =>
        exfalso
        apply hne
        simp [ensureApplicationSnapshotPassedAllTests, hb, hp]
      | ok pipelineType =>
        cases hg : getApplicationSnapshotFromPipelineRun inp.run.labels
            pipelineType inp.storeGet with
        | error e =>
          exfalso
          apply hne
          simp [ensureApplicationSnapshotPassedAllTests, hb, hp, hg]
        | ok snap =>
          cases hs : inp.scenariosResult with
          | error e =>
            exfalso
            apply hne
            simp [ensureApplicationSnapshotPassedAllTests, hb, hp, hg, hs]
          | ok scenarios =>
            cases hr : inp.runsResult with
            | error e =>
              exfalso
              apply hne
              simp [ensureApplicationSnapshotPassedAllTests,
                hb, hp, hg, hs, hr]
            | ok runs =>
              refine ⟨scenarios, runs, rfl, rfl, ?_⟩
              by_cases hl : scenarios.length = runs.length
              · exact hl
              · exfalso
                apply hne
                simp [ensureApplicationSnapshotPassedAllTests,
                  hb, hp, hg, hs, hr, hl]
  · intro pipelineType snap scenarios runs hb hp hg hs hr hl
    simp [ensureApplicationSnapshotPassedAllTests, hb, hp, hg, hs, hr, hl]

/-- Claim C3 witness: with two required scenarios and a single resolved
run, the aggregator returns Continue and writes no verdict. -/
theorem verdict_written_iff_counts_equal_witness :
    ensureApplicationSnapshotPassedAllTests incompleteInput =
      (OperationResult.continueProcessing, none) :=
  (verdict_written_iff_counts_equal incompleteInput).2 "test" snapshotAB
    [scenarioOne, scenarioTwo] [runWithSuccessOutput] rfl rfl rfl rfl rfl
    (by decide)

/-- Claim C9 counterexample: for a test PipelineRun carrying no snapshot
reference label, the orchestrator does return the retry-with-error result
(results.RequeueWithError) and writes no status: processing is requeued,
not stopped after a status write. -/
theorem missingSnapshot_requeues_cx :
    ensureApplicationSnapshotPassedAllTests missingSnapshotInput =
      (OperationResult.requeueWithError, none) := rfl

/-- Claim C9 (amended): a test PipelineRun with no snapshot reference
label propagates the lookup error as RequeueWithError — the event is
retried with the error, no status write happens and no verdict is
recorded. -/
theorem missingSnapshot_returns_requeueWithError (inp : EnsureTestsInput)
    (pipelineType : String)
    (h1 : inp.isIntegrationPipelineRun = true)
    (h2 : inp.pipelineType = .ok pipelineType)
    (h3 : List.lookup (pipelineType ++ ".appstudio.openshift.io/snapshot")
        inp.run.labels = none) :
    ensureApplicationSnapshotPassedAllTests inp =
      (OperationResult.requeueWithError, none) := by
  simp [ensureApplicationSnapshotPassedAllTests,
    getApplicationSnapshotFromPipelineRun, h1, h2, h3]

/-- Claim C9 witness: the amended statement at a concrete test run with an
empty label map. -/
theorem missingSnapshot_returns_requeueWithError_witness :
    ensureApplicationSnapshotPassedAllTests missingSnapshotInputAlt =
      (OperationResult.requeueWithError, none) :=
  missingSnapshot_returns_requeueWithError missingSnapshotInputAlt "test"
    rfl rfl rfl

end IntegrationService
